import Mathlib

/-!
Verification of the oci-registry-client repository: a shallow embedding of
the digest model (src/manifest.rs), the streaming blob reader (src/blob.rs),
the registry client error classification (src/lib.rs, src/errors.rs) and the
download orchestrator (src/main.rs), together with theorems settling the
specified properties. Bytes are modelled as natural numbers below 256 and
machine words as natural numbers reduced modulo 2 ^ 32.
-/

namespace OCIClient

/-! ## Digest (src/manifest.rs)

The Rust struct Digest has two String fields, algorithm and hash, with
structural equality derived by PartialEq. -/

structure Digest where
  algorithm : String
  hash : String
deriving DecidableEq, Repr

/-- Model of Rust s.splitn(2, ch) restricted to the colon pattern: returns
the part before the first colon and the remainder after it, or none when the
list has no colon (in which case splitn yields a single fragment, so the
second call to next() in from_str returns None). -/
def splitFirstColon : List Char → Option (List Char × List Char)
  | [] => none
  | c :: rest =>
    if c = ':' then some ([], rest)
    else match splitFirstColon rest with
      | some (a, h) => some (c :: a, h)
      | none => none

/-- The error value of the FromStr implementation for Digest. -/
structure ParseDigestError where
deriving DecidableEq, Repr

/-- Model of the FromStr implementation for Digest (src/manifest.rs lines
142-155): split the input at the first colon; the part before it becomes the
algorithm and the remainder the hash; fail when there is no colon. The first
call to next() on a splitn iterator never returns None, so only the absence
of a second fragment produces ParseDigestError. -/
def digestFromStr (s : String) : Except ParseDigestError Digest :=
  match splitFirstColon s.data with
  | some (a, h) => Except.ok ⟨String.mk a, String.mk h⟩
  | none => Except.error ⟨⟩

/-- Model of the Display implementation for Digest (src/manifest.rs lines
136-140): algorithm, colon, hash. -/
def digestToString (d : Digest) : String := d.algorithm ++ ":" ++ d.hash

/-- Model of the Serialize implementation for Digest (src/manifest.rs lines
178-186). Note the source writes the hash field first and the algorithm
second: format!("{}:{}", &self.hash, &self.algorithm). -/
def digestSerialize (d : Digest) : String := d.hash ++ ":" ++ d.algorithm

/-- Model of the Deserialize implementation for Digest (src/manifest.rs lines
168-176): deserialize a string, then parse it with FromStr. -/
def digestDeserialize (s : String) : Except ParseDigestError Digest :=
  digestFromStr s

/-- Lowercase hexadecimal digit, as used in digest hash text. -/
def isLowerHexChar (c : Char) : Bool :=
  c.isDigit || ('a' ≤ c && c ≤ 'f')

/-- A valid digest string in the sense of the specification: an algorithm
name (non-empty, containing no colon), a colon, and a non-empty lowercase
hexadecimal hash. -/
def ValidDigestString (s : String) : Prop :=
  ∃ a h : List Char, ':' ∉ a ∧ a ≠ [] ∧ h ≠ [] ∧
    (∀ c ∈ h, isLowerHexChar c) ∧ s.data = a ++ ':' :: h

/-- A valid Digest value in the sense of the specification: non-empty
algorithm containing no colon, non-empty lowercase hexadecimal hash. -/
def Digest.Valid (d : Digest) : Prop :=
  ':' ∉ d.algorithm.data ∧ d.algorithm.data ≠ [] ∧ d.hash.data ≠ [] ∧
    ∀ c ∈ d.hash.data, isLowerHexChar c

/-! ## SHA-256 (the sha2 crate used by src/blob.rs)

A byte is a natural number below 256; a 32-bit word is a natural number
reduced modulo 2 ^ 32 by w32. This is the FIPS 180-4 compression function
that the sha2 crate implements. -/

/-- Reduce modulo 2 ^ 32, the word size of SHA-256. -/
def w32 (n : Nat) : Nat := n % 2 ^ 32

/-- Rotate a 32-bit word right by n bits. -/
def rotr (n x : Nat) : Nat := w32 ((x >>> n) ||| (x <<< (32 - n)))

/-- SHA-256 choice function. -/
def shaCh (x y z : Nat) : Nat := (x &&& y) ^^^ ((x ^^^ 0xffffffff) &&& z)

/-- SHA-256 majority function. -/
def shaMaj (x y z : Nat) : Nat := (x &&& y) ^^^ (x &&& z) ^^^ (y &&& z)

/-- SHA-256 big sigma 0. -/
def bigSigma0 (x : Nat) : Nat := rotr 2 x ^^^ rotr 13 x ^^^ rotr 22 x

/-- SHA-256 big sigma 1. -/
def bigSigma1 (x : Nat) : Nat := rotr 6 x ^^^ rotr 11 x ^^^ rotr 25 x

/-- SHA-256 small sigma 0. -/
def smallSigma0 (x : Nat) : Nat := rotr 7 x ^^^ rotr 18 x ^^^ (x >>> 3)

/-- SHA-256 small sigma 1. -/
def smallSigma1 (x : Nat) : Nat := rotr 17 x ^^^ rotr 19 x ^^^ (x >>> 10)

/-- The 64 SHA-256 round constants of FIPS 180-4, in decimal. -/
def shaK : List Nat :=
  [1116352408, 1899447441, 3049323471, 3921009573, 961987163,
   1508970993, 2453635748, 2870763221, 3624381080, 310598401,
   607225278, 1426881987, 1925078388, 2162078206, 2614888103,
   3248222580, 3835390401, 4022224774, 264347078, 604807628,
   770255983, 1249150122, 1555081692, 1996064986, 2554220882,
   2821834349, 2952996808, 3210313671, 3336571891, 3584528711,
   113926993, 338241895, 666307205, 773529912, 1294757372,
   1396182291, 1695183700, 1986661051, 2177026350, 2456956037,
   2730485921, 2820302411, 3259730800, 3345764771, 3516065817,
   3600352804, 4094571909, 275423344, 430227734, 506948616,
   659060556, 883997877, 958139571, 1322822218, 1537002063,
   1747873779, 1955562222, 2024104815, 2227730452, 2361852424,
   2428436474, 2756734187, 3204031479, 3329325298]

/-- The SHA-256 initial hash value of FIPS 180-4, in decimal. -/
def shaH0 : List Nat :=
  [1779033703, 3144134277, 1013904242,
   2773480762, 1359893119, 2600822924,
   528734635, 1541459225]

/-- Big-endian bytes to 32-bit words, four bytes per word. -/
def toWords : List Nat → List Nat
  | b0 :: b1 :: b2 :: b3 :: rest =>
    ((((((b0 <<< 8) ||| b1) <<< 8) ||| b2) <<< 8) ||| b3) :: toWords rest
  | _ => []

/-- Extend the 16 block words to the 64-entry message schedule; the first
argument counts the remaining entries to append. -/
def extendW : Nat → List Nat → List Nat
  | 0, w => w
  | n + 1, w =>
    let t := w32 (smallSigma1 (w.getD (w.length - 2) 0) + w.getD (w.length - 7) 0 +
                  smallSigma0 (w.getD (w.length - 15) 0) + w.getD (w.length - 16) 0)
    extendW n (w ++ [t])

/-- One SHA-256 round: the state is the eight working variables; wk is the
pair of schedule word and round constant. -/
def shaStep (s : List Nat) (wk : Nat × Nat) : List Nat :=
  match s with
  | [a, b, c, d, e, f, g, h] =>
    let t1 := w32 (h + bigSigma1 e + shaCh e f g + wk.2 + wk.1)
    let t2 := w32 (bigSigma0 a + shaMaj a b c)
    [w32 (t1 + t2), a, b, c, w32 (d + t1), e, f, g]
  | other => other

/-- Compress one 64-byte block into the running hash value. -/
def processBlock (hs : List Nat) (block : List Nat) : List Nat :=
  let w := extendW 48 (toWords block)
  let s := (w.zip shaK).foldl shaStep hs
  (hs.zip s).map fun p => w32 (p.1 + p.2)

/-- Split into 64-byte blocks; the fuel argument bounds the recursion and is
instantiated with the list length, which always suffices. -/
def chunks64Fuel : Nat → List Nat → List (List Nat)
  | 0, _ => []
  | _, [] => []
  | fuel + 1, b :: rest => ((b :: rest).take 64) :: chunks64Fuel fuel ((b :: rest).drop 64)

/-- Split a byte list into 64-byte blocks. -/
def chunks64 (l : List Nat) : List (List Nat) := chunks64Fuel l.length l

/-- The bit length of the message as eight big-endian bytes. -/
def lenBytesBE (bits : Nat) : List Nat :=
  (List.range 8).map fun i => (bits >>> (8 * (7 - i))) % 256

/-- SHA-256 padding: append 0x80, then zeros to reach 56 modulo 64, then the
bit length in eight big-endian bytes. -/
def shaPad (msg : List Nat) : List Nat :=
  let L := msg.length
  msg ++ 0x80 :: (List.replicate ((119 - L % 64) % 64) 0 ++ lenBytesBE (8 * L))

/-- A 32-bit word as four big-endian bytes. -/
def wordBytesBE (x : Nat) : List Nat :=
  [(x >>> 24) % 256, (x >>> 16) % 256, (x >>> 8) % 256, x % 256]

/-- SHA-256 of a byte list, as the 32 bytes of the digest. -/
def sha256 (msg : List Nat) : List Nat :=
  (((chunks64 (shaPad msg)).foldl processBlock shaH0).map wordBytesBE).flatten

/-- Lowercase hexadecimal digit character for a value below 16. -/
def hexDigitChar (n : Nat) : Char :=
  if n < 10 then Char.ofNat (48 + n) else Char.ofNat (87 + n)

/-- Render bytes as lowercase hexadecimal, as format!("{:x}", hash) does for
a GenericArray of bytes. -/
def bytesToHex (bs : List Nat) : String :=
  String.mk (bs.map (fun b => [hexDigitChar (b / 16), hexDigitChar (b % 16)])).flatten

/-- Model of Digest::from_sha256 (src/manifest.rs lines 127-134): the fixed
algorithm name sha256 paired with the digest bytes in lowercase hex. -/
def Digest.from_sha256 (hash : List Nat) : Digest :=
  ⟨"sha256", bytesToHex hash⟩

/-! ## Errors (src/errors.rs) -/

/-- Model of the Error struct returned by the registry API: code, message
and a detail payload (an arbitrary JSON value in the source, kept opaque as
its raw text here). -/
structure RegistryError where
  code : String
  message : String
  detail : String
deriving DecidableEq, Repr

/-- Model of the ErrorList struct: the list of errors of an API error body. -/
structure ErrorList where
  errors : List RegistryError
deriving DecidableEq, Repr

/-- The two failure families a reqwest::Error distinguishes internally on
this path: a request that failed below the HTTP layer, and a response body
that failed to decode. Both surface through the single RequestError variant
of ErrorResponse. -/
inductive ReqwestErrorKind where
  | request
  | decode
deriving DecidableEq, Repr

/-- Model of the ErrorResponse enum (src/errors.rs lines 38-42): exactly two
variants, APIError wrapping the decoded error list and RequestError wrapping
a reqwest::Error. -/
inductive ErrorResponse where
  | APIError (errors : ErrorList)
  | RequestError (err : ReqwestErrorKind)
deriving DecidableEq, Repr

/-- True exactly on the RequestError variant. -/
def ErrorResponse.isRequestError : ErrorResponse → Bool
  | .RequestError _ => true
  | .APIError _ => false

/-! ## Streaming blob reader (src/blob.rs) -/

/-- Model of the Blob struct: the still-open response body is the list of
chunks the transport will deliver, responseFails records a transport error
occurring after those chunks; the incremental Sha256 hasher state is the
byte sequence fed to it so far (per the sha2 crate contract, feeding chunks
one at a time is equivalent to feeding their concatenation). -/
structure Blob where
  response : List (List Nat)
  responseFails : Bool
  len : Option Nat
  content_type : Option String
  hasher : List Nat
deriving DecidableEq, Repr

/-- Model of Blob::chunk (src/blob.rs lines 46-56): on a delivered chunk,
feed it to the hasher and return it; at end of stream return none; on a
transport error return RequestError. -/
def Blob.chunk (b : Blob) : Except ErrorResponse (Option (List Nat)) × Blob :=
  match b.response with
  | c :: rest =>
    (Except.ok (some c), { b with response := rest, hasher := b.hasher ++ c })
  | [] =>
    if b.responseFails then
      (Except.error (ErrorResponse.RequestError ReqwestErrorKind.request), b)
    else (Except.ok none, b)

/-- Model of Blob::digest (src/blob.rs lines 59-62): finalize the running
hash and wrap it with Digest::from_sha256. -/
def Blob.digest (b : Blob) : Digest := Digest.from_sha256 (sha256 b.hasher)

/-- Model of the From impl for Blob (src/blob.rs lines 65-80): a fresh Blob
over a response, with an empty hasher (Sha256::new()). -/
def Blob.fromResponse (chunks : List (List Nat)) (fails : Bool)
    (len : Option Nat) (ct : Option String) : Blob :=
  ⟨chunks, fails, len, ct, []⟩

/-- Repeatedly call Blob.chunk, as the while-let loops in the sources do,
collecting the returned chunks until a call returns none or an error; fuel
bounds the iteration count. -/
def Blob.drainFuel : Nat → Blob → List (List Nat) × Blob
  | 0, b => ([], b)
  | fuel + 1, b =>
    match b.chunk with
    | (Except.ok (some c), b2) =>
      let p := Blob.drainFuel fuel b2
      (c :: p.1, p.2)
    | (_, b2) => ([], b2)

/-- Drain a blob completely: enough fuel that the loop ends by observing the
end-of-stream answer of Blob.chunk. -/
def Blob.drain (b : Blob) : List (List Nat) × Blob :=
  Blob.drainFuel (b.response.length + 1) b

/-! ## Registry protocol client (src/lib.rs) -/

/-- Outcome of one HTTP exchange as the request helper sees it: the send can
fail below the HTTP layer, or a response arrives with a status code and a
body; bodyAsT is the result of decoding the body as the expected schema T,
bodyAsErrors the result of decoding it as the registry error-list schema
(none models a serde failure in either case). -/
inductive HttpOutcome (T : Type) where
  | sendFail
  | response (status : Nat) (bodyAsT : Option T) (bodyAsErrors : Option ErrorList)

/-- Model of DockerRegistryClientV2::request (src/lib.rs lines 187-208): a
send failure propagates through the question mark operator as RequestError;
a 200 response decodes the typed body, a serde failure again propagating as
RequestError; any other status decodes the error-list body into APIError,
with its own serde failure propagating as RequestError. -/
def requestResult {T : Type} (out : HttpOutcome T) : Except ErrorResponse T :=
  match out with
  | HttpOutcome.sendFail =>
    Except.error (ErrorResponse.RequestError ReqwestErrorKind.request)
  | HttpOutcome.response status bodyT bodyE =>
    if status = 200 then
      match bodyT with
      | some t => Except.ok t
      | none => Except.error (ErrorResponse.RequestError ReqwestErrorKind.decode)
    else
      match bodyE with
      | some es => Except.error (ErrorResponse.APIError es)
      | none => Except.error (ErrorResponse.RequestError ReqwestErrorKind.decode)

/-! ## Download orchestrator (src/main.rs) -/

/-- Model of the Layer struct (src/manifest.rs lines 64-70). -/
structure Layer where
  media_type : String
  size : Nat
  digest : Digest
deriving DecidableEq, Repr

/-- The scheduling scan of main (src/main.rs lines 91-108): iterate over the
layers in order keeping the already scanned ones; when some earlier layer
has an equal digest, skip; otherwise assign the next task index and spawn a
task for this digest. -/
def scheduleLoop (earlier : List Layer) : List Layer → List Digest
  | [] => []
  | l :: rest =>
    if earlier.any (fun e => decide (e.digest = l.digest)) then
      scheduleLoop (earlier ++ [l]) rest
    else
      l.digest :: scheduleLoop (earlier ++ [l]) rest

/-- The digests for which main schedules a fetch task, in task-index order. -/
def scheduledTasks (layers : List Layer) : List Digest := scheduleLoop [] layers

/-- One fetch task per unique digest, keeping first occurrences in order;
the specification-side description of deduplication, to be compared with
scheduledTasks. -/
def uniqueFirstDigests (seen : List Digest) : List Digest → List Digest
  | [] => []
  | d :: rest =>
    if d ∈ seen then uniqueFirstDigests seen rest
    else d :: uniqueFirstDigests (d :: seen) rest

/-- Model of the DownloadProgressReport struct (src/main.rs lines 10-16).
The total field is a plain number: download_layer only sends a report when
the content length is known. -/
structure DownloadProgressReport where
  n : Nat
  digest : Digest
  downloaded : Nat
  total : Nat
deriving DecidableEq, Repr

/-- The reports sent by the loop of download_layer (src/main.rs lines
30-43): after every delivered chunk the running byte count advances, and a
report is sent only when the blob announced a total length. -/
def downloadLayerReports (n : Nat) (digest : Digest) (total : Option Nat)
    (downloaded : Nat) : List (List Nat) → List DownloadProgressReport
  | [] => []
  | c :: rest =>
    let d2 := downloaded + c.length
    match total with
    | some t => ⟨n, digest, d2, t⟩ :: downloadLayerReports n digest total d2 rest
    | none => downloadLayerReports n digest total d2 rest

/-- Model of the LayerDownloadStatus enum (src/main.rs lines 48-52). -/
inductive LayerDownloadStatus where
  | Unknown (digest : Digest)
  | Downloading (digest : Digest) (downloaded : Nat) (total : Nat)
  | Completed (digest : Digest)
deriving DecidableEq, Repr

/-- Model of LayerDownloadStatus::completed (src/main.rs lines 54-58). -/
def LayerDownloadStatus.completed : LayerDownloadStatus → Bool
  | .Completed _ => true
  | _ => false

/-- True exactly on the status whose rendering branch divides by the total
and prints a percentage (src/main.rs lines 127-133). -/
def LayerDownloadStatus.rendersPercentage : LayerDownloadStatus → Bool
  | .Downloading _ _ _ => true
  | _ => false

/-- One step of the consumer loop (src/main.rs lines 110-121): the entry at
the task index of the received report becomes Completed when the byte counts
match, Downloading otherwise. -/
def consumerStep (statuses : List LayerDownloadStatus)
    (p : DownloadProgressReport) : List LayerDownloadStatus :=
  statuses.set p.n
    (if p.downloaded = p.total then LayerDownloadStatus.Completed p.digest
     else LayerDownloadStatus.Downloading p.digest p.downloaded p.total)

/-- The consumer loop over a delivered report sequence. -/
def consumeAll (statuses : List LayerDownloadStatus)
    (reports : List DownloadProgressReport) : List LayerDownloadStatus :=
  reports.foldl consumerStep statuses

/-- Whether the status table marks the task at the given index Completed. -/
def completedAt (sts : List LayerDownloadStatus) (n : Nat) : Bool :=
  ((sts.get? n).map LayerDownloadStatus.completed).getD false

/-- How a spawned download_layer task ends: returning its Ok value, or a
panic from one of the unwrap calls, with the reports already sent on the
channel at that point. -/
inductive TaskOutcome where
  | ok (reports : List DownloadProgressReport)
  | panicked (reports : List DownloadProgressReport)
deriving DecidableEq, Repr

/-- True exactly on the panic outcome. -/
def TaskOutcome.isPanic : TaskOutcome → Bool
  | .panicked _ => true
  | .ok _ => false

/-- Model of one run of download_layer (src/main.rs lines 18-46) over a
transport trace: a blobResult of none models client.blob returning an error,
on which the unwrap at line 25 panics before any report is sent; otherwise
the loop sends the reports of the delivered chunks, and ends either at the
clean end of stream, returning Ok, or at a chunk error, on which the unwrap
at line 30 panics. -/
def downloadLayerRun (n : Nat) (digest : Digest) (blobResult : Option Blob) :
    TaskOutcome :=
  match blobResult with
  | none => TaskOutcome.panicked []
  | some blob =>
    let reports := downloadLayerReports n digest blob.len 0 blob.response
    if blob.responseFails then TaskOutcome.panicked reports
    else TaskOutcome.ok reports

theorem splitFirstColon_eq_none {l : List Char} :
    splitFirstColon l = none ↔ ':' ∉ l := by
  induction l with
  | nil => simp [splitFirstColon]
  | cons c rest ih =>
    by_cases hc : c = ':'
    · subst hc; simp [splitFirstColon]
    · simp only [splitFirstColon, if_neg hc]
      cases hs : splitFirstColon rest with
      | none =>
        constructor
        · intro _ hmem
          rcases List.mem_cons.mp hmem with h1 | h2
          · exact hc h1.symm
          · exact (ih.mp hs) h2
        · intro _; rfl
      | some p =>
        constructor
        · intro h; simp at h
        · intro hmem
          exfalso
          have hnr : ':' ∉ rest := fun h2 => hmem (List.mem_cons_of_mem _ h2)
          rw [← ih, hs] at hnr
          simp at hnr

theorem splitFirstColon_append {a : List Char} (h : List Char)
    (ha : ':' ∉ a) : splitFirstColon (a ++ ':' :: h) = some (a, h) := by
  induction a with
  | nil => simp [splitFirstColon]
  | cons c rest ih =>
    have hc : c ≠ ':' := fun hc => ha (by simp [hc])
    have hrest : ':' ∉ rest := fun hr => ha (by simp [hr])
    simp [splitFirstColon, hc, ih hrest]

theorem splitFirstColon_sound {l a h : List Char}
    (hs : splitFirstColon l = some (a, h)) :
    l = a ++ ':' :: h ∧ ':' ∉ a := by
  induction l generalizing a h with
  | nil => simp [splitFirstColon] at hs
  | cons c rest ih =>
    by_cases hc : c = ':'
    · subst hc
      simp [splitFirstColon] at hs
      obtain ⟨ha, hh⟩ := hs
      subst hh
      subst ha
      simp
    · simp only [splitFirstColon, if_neg hc] at hs
      cases hr : splitFirstColon rest with
      | none => rw [hr] at hs; simp at hs
      | some p =>
        obtain ⟨a0, h0⟩ := p
        rw [hr] at hs
        simp only [Option.some.injEq, Prod.mk.injEq] at hs
        obtain ⟨ha, hh⟩ := hs
        subst hh
        subst ha
        obtain ⟨hl, hna⟩ := ih hr
        constructor
        · rw [hl]; rfl
        · intro hmem
          rcases List.mem_cons.mp hmem with h1 | h2
          · exact hc h1.symm
          · exact hna h2

theorem string_eq_of_data {s t : String} (h : s.data = t.data) : s = t :=
  congrArg String.mk h

theorem data_digestToString (d : Digest) :
    (digestToString d).data = d.algorithm.data ++ ':' :: d.hash.data := by
  simp [digestToString, String.data_append]

theorem digestFromStr_of_colon {s : String} (hc : ':' ∈ s.data) :
    ∃ a h : List Char, ':' ∉ a ∧ s.data = a ++ ':' :: h ∧
      digestFromStr s = Except.ok ⟨String.mk a, String.mk h⟩ := by
  cases hs : splitFirstColon s.data with
  | none => exact absurd hc (splitFirstColon_eq_none.mp hs)
  | some p =>
    obtain ⟨a, h⟩ := p
    obtain ⟨hdec, hna⟩ := splitFirstColon_sound hs
    exact ⟨a, h, hna, hdec, by simp [digestFromStr, hs]⟩

/-- C9: Digest parsing returns ParseDigestError exactly when the input has no
colon; for every string containing a colon, parsing succeeds, the text before
the first colon becoming the algorithm and the remainder the hash. -/
theorem c9_parse_error_iff_no_colon :
    (∀ s : String, digestFromStr s = Except.error ⟨⟩ ↔ ':' ∉ s.data) ∧
    (∀ s : String, ':' ∈ s.data →
      ∃ a h : List Char, ':' ∉ a ∧ s.data = a ++ ':' :: h ∧
        digestFromStr s = Except.ok ⟨String.mk a, String.mk h⟩) := by
  constructor
  · intro s
    constructor
    · intro herr
      cases hs : splitFirstColon s.data with
      | none => exact splitFirstColon_eq_none.mp hs
      | some p =>
        obtain ⟨a, h⟩ := p
        simp [digestFromStr, hs] at herr
    · intro hnc
      simp [digestFromStr, splitFirstColon_eq_none.mpr hnc]
  · intro s hc
    exact digestFromStr_of_colon hc

/-- Witness for C9 at concrete inputs: a string with no colon fails to parse,
and a well-formed digest string parses successfully. -/
theorem c9_witness :
    digestFromStr "sha256" = Except.error ⟨⟩ ∧
    (∃ a h : List Char, ':' ∉ a ∧ "sha256:ab".data = a ++ ':' :: h ∧
      digestFromStr "sha256:ab" = Except.ok ⟨String.mk a, String.mk h⟩) :=
  ⟨(c9_parse_error_iff_no_colon.1 "sha256").mpr (by decide),
   c9_parse_error_iff_no_colon.2 "sha256:ab" (by decide)⟩

/-- C10: for every string containing at least one colon, including strings
whose hash part itself contains further colons, parsing succeeds splitting
only at the first colon, and printing the resulting Digest reproduces the
input exactly. -/
theorem c10_first_colon_roundtrip (s : String) (hc : ':' ∈ s.data) :
    ∃ d : Digest, digestFromStr s = Except.ok d ∧ ':' ∉ d.algorithm.data ∧
      s.data = d.algorithm.data ++ ':' :: d.hash.data ∧ digestToString d = s := by
  obtain ⟨a, h, hna, hdec, hok⟩ := digestFromStr_of_colon hc
  refine ⟨⟨String.mk a, String.mk h⟩, hok, hna, hdec, ?_⟩
  apply string_eq_of_data
  rw [data_digestToString]
  exact hdec.symm

/-- Witness for C10 at a concrete input whose hash part contains a further
colon. -/
theorem c10_witness :
    ∃ d : Digest, digestFromStr "sha256:ab:cd" = Except.ok d ∧
      ':' ∉ d.algorithm.data ∧
      "sha256:ab:cd".data = d.algorithm.data ++ ':' :: d.hash.data ∧
      digestToString d = "sha256:ab:cd" :=
  c10_first_colon_roundtrip "sha256:ab:cd" (by decide)

/-- C3: digest parsing and printing round trip: every valid digest string
parses to a Digest that prints back to the same string, and every valid
Digest printed and re-parsed yields the same Digest. -/
theorem c3_valid_roundtrip :
    (∀ s : String, ValidDigestString s →
      ∃ d : Digest, digestFromStr s = Except.ok d ∧ digestToString d = s) ∧
    (∀ d : Digest, d.Valid → digestFromStr (digestToString d) = Except.ok d) := by
  constructor
  · intro s hv
    obtain ⟨a, h, hna, _, _, _, hdec⟩ := hv
    have hsplit : splitFirstColon s.data = some (a, h) := by
      rw [hdec]; exact splitFirstColon_append h hna
    refine ⟨⟨String.mk a, String.mk h⟩, by simp [digestFromStr, hsplit], ?_⟩
    apply string_eq_of_data
    rw [data_digestToString]
    exact hdec.symm
  · intro d hv
    obtain ⟨hna, _, _, _⟩ := hv
    have hsplit : splitFirstColon (digestToString d).data =
        some (d.algorithm.data, d.hash.data) := by
      rw [data_digestToString]
      exact splitFirstColon_append d.hash.data hna
    have hres : digestFromStr (digestToString d) =
        Except.ok ⟨String.mk d.algorithm.data, String.mk d.hash.data⟩ := by
      simp [digestFromStr, hsplit]
    exact hres

/-- Witness for C3 at a concrete valid digest string and a concrete valid
Digest value. -/
theorem c3_witness :
    (∃ d : Digest, digestFromStr "sha256:ab" = Except.ok d ∧
      digestToString d = "sha256:ab") ∧
    digestFromStr (digestToString ⟨"sha256", "ab"⟩) =
      Except.ok ⟨"sha256", "ab"⟩ :=
  ⟨c3_valid_roundtrip.1 "sha256:ab"
    ⟨"sha256".data, "ab".data, by decide, by decide, by decide, by decide,
     by decide⟩,
   c3_valid_roundtrip.2 ⟨"sha256", "ab"⟩
    ⟨by decide, by decide, by decide, by decide⟩⟩

/-- Counterexample to C8 as stated: the string consisting of a single colon
parses successfully, yet both resulting fields are empty. -/
theorem c8_counterexample :
    digestFromStr ":" = Except.ok ⟨"", ""⟩ ∧ ("" : String).data = [] :=
  ⟨rfl, rfl⟩

/-- C8 amended: for every string on which Digest parsing succeeds, the
algorithm is the text before the first colon and the hash the remainder, so
the two fields joined by a colon reproduce the input and the algorithm
contains no colon; neither field is guaranteed non-empty. -/
theorem c8_amended_parse_decomposition (s : String) (d : Digest)
    (h : digestFromStr s = Except.ok d) :
    s.data = d.algorithm.data ++ ':' :: d.hash.data ∧ ':' ∉ d.algorithm.data := by
  unfold digestFromStr at h
  cases hs : splitFirstColon s.data with
  | none => rw [hs] at h; cases h
  | some p =>
    obtain ⟨a, hh⟩ := p
    rw [hs] at h
    simp only [Except.ok.injEq] at h
    obtain ⟨hl, hna⟩ := splitFirstColon_sound hs
    subst h
    exact ⟨hl, hna⟩

/-- Witness for the amended C8, at the very input that refutes the original
claim. -/
theorem c8_amended_witness :
    (":" : String).data =
      (Digest.mk "" "").algorithm.data ++ ':' :: (Digest.mk "" "").hash.data ∧
    ':' ∉ (Digest.mk "" "").algorithm.data :=
  c8_amended_parse_decomposition ":" ⟨"", ""⟩ rfl

/-- C7 (code bug): the Serialize implementation renders hash first and
algorithm second, so serializing Digest(sha256, abc) yields abc:sha256
rather than the canonical sha256:abc, and deserializing the serialized form
swaps the two fields instead of reproducing the original Digest. -/
theorem c7_serialize_code_bug :
    digestSerialize ⟨"sha256", "abc"⟩ = "abc:sha256" ∧
    digestDeserialize (digestSerialize ⟨"sha256", "abc"⟩) =
      Except.ok ⟨"abc", "sha256"⟩ ∧
    Digest.mk "abc" "sha256" ≠ Digest.mk "sha256" "abc" := by
  refine ⟨by decide, rfl, by decide⟩

theorem drainFuel_clean (chunks : List (List Nat)) (len : Option Nat)
    (ct : Option String) (h0 : List Nat) :
    Blob.drainFuel (chunks.length + 1) ⟨chunks, false, len, ct, h0⟩ =
      (chunks, ⟨[], false, len, ct, h0 ++ chunks.flatten⟩) := by
  induction chunks generalizing h0 with
  | nil => simp [Blob.drainFuel, Blob.chunk]
  | cons c rest ih =>
    have hstep : Blob.drainFuel ((c :: rest).length + 1) ⟨c :: rest, false, len, ct, h0⟩ =
        (c :: (Blob.drainFuel (rest.length + 1) ⟨rest, false, len, ct, h0 ++ c⟩).1,
         (Blob.drainFuel (rest.length + 1) ⟨rest, false, len, ct, h0 ++ c⟩).2) := rfl
    rw [hstep, ih (h0 ++ c)]
    simp

/-- C1: with sha256 verification enabled, every chunk call that returns
bytes folds exactly those bytes into the running hash before returning them
to the caller; draining a fresh blob to end of stream returns exactly the
delivered chunks in order, after which digest() is the Digest with algorithm
sha256 and hash the lowercase hex sha256 of their concatenation; in
particular the chunks ab and cd yield the sha256 of abcd. -/
theorem c1_streaming_digest :
    (∀ (b : Blob) (c : List Nat) (rest : List (List Nat)),
      Blob.chunk { b with response := c :: rest } =
        (Except.ok (some c),
         { b with response := rest, hasher := b.hasher ++ c })) ∧
    (∀ (chunks : List (List Nat)) (len : Option Nat) (ct : Option String),
      (Blob.fromResponse chunks false len ct).drain.1 = chunks ∧
      (Blob.fromResponse chunks false len ct).drain.2.digest =
        Digest.mk "sha256" (bytesToHex (sha256 chunks.flatten))) ∧
    (Blob.fromResponse [[0x61, 0x62], [0x63, 0x64]] false none none).drain.2.digest =
      Digest.mk "sha256"
        "88d4266fd4e6338d13b845fcf289579d209c897823b9217da3e161936f031589" := by
  refine ⟨?_, ?_, ?_⟩
  · intro b c rest
    rfl
  · intro chunks len ct
    have h := drainFuel_clean chunks len ct []
    constructor
    · simp [Blob.drain, Blob.fromResponse, h]
    · simp [Blob.drain, Blob.fromResponse, h, Blob.digest, Digest.from_sha256]
  · decide

theorem scheduleLoop_eq_uniqueFirst (l : List Layer) :
    ∀ (earlier : List Layer) (seen : List Digest),
      (∀ d, d ∈ seen ↔ ∃ e ∈ earlier, e.digest = d) →
      scheduleLoop earlier l = uniqueFirstDigests seen (l.map Layer.digest) := by
  induction l with
  | nil => intro earlier seen _; rfl
  | cons l0 rest ih =>
    intro earlier seen hinv
    have hcond : (earlier.any fun e => decide (e.digest = l0.digest)) = true ↔
        l0.digest ∈ seen := by
      rw [List.any_eq_true]
      constructor
      · rintro ⟨e, he, hd⟩
        exact (hinv l0.digest).mpr ⟨e, he, of_decide_eq_true hd⟩
      · intro hm
        obtain ⟨e, he, hd⟩ := (hinv l0.digest).mp hm
        exact ⟨e, he, decide_eq_true hd⟩
    simp only [scheduleLoop, List.map_cons, uniqueFirstDigests]
    by_cases hmem : l0.digest ∈ seen
    · rw [if_pos (hcond.mpr hmem), if_pos hmem]
      apply ih
      intro d
      constructor
      · intro hd
        obtain ⟨e, he, hed⟩ := (hinv d).mp hd
        exact ⟨e, List.mem_append_left _ he, hed⟩
      · rintro ⟨e, he, hed⟩
        rcases List.mem_append.mp he with h1 | h2
        · exact (hinv d).mpr ⟨e, h1, hed⟩
        · have he0 : e = l0 := by simpa using h2
          subst he0
          rw [← hed]
          exact hmem
    · rw [if_neg (fun hx => hmem (hcond.mp hx)), if_neg hmem]
      congr 1
      apply ih
      intro d
      constructor
      · intro hd
        rcases List.mem_cons.mp hd with h1 | h2
        · exact ⟨l0, List.mem_append_right _ (List.mem_singleton_self l0), h1.symm⟩
        · obtain ⟨e, he, hed⟩ := (hinv d).mp h2
          exact ⟨e, List.mem_append_left _ he, hed⟩
      · rintro ⟨e, he, hed⟩
        rcases List.mem_append.mp he with h1 | h2
        · exact List.mem_cons_of_mem _ ((hinv d).mpr ⟨e, h1, hed⟩)
        · have he0 : e = l0 := by simpa using h2
          subst he0
          rw [← hed]
          exact List.mem_cons_self _ _

theorem uniqueFirst_count (d : Digest) (l : List Digest) :
    ∀ seen : List Digest,
      (uniqueFirstDigests seen l).count d =
        if d ∈ l ∧ d ∉ seen then 1 else 0 := by
  induction l with
  | nil => intro seen; simp [uniqueFirstDigests]
  | cons d0 rest ih =>
    intro seen
    simp only [uniqueFirstDigests]
    by_cases h0 : d0 ∈ seen
    · rw [if_pos h0, ih seen]
      by_cases hd : d = d0
      · subst hd
        simp [h0]
      · simp [List.mem_cons, hd]
    · rw [if_neg h0]
      by_cases hd : d = d0
      · subst hd
        rw [List.count_cons_self, ih (d :: seen)]
        simp [h0]
      · rw [List.count_cons_of_ne hd, ih (d0 :: seen)]
        simp [List.mem_cons, hd]

/-- C2: the scheduling scan of main launches exactly one fetch task per
unique digest, in first-occurrence order: it equals the deduplication of the
layer digest sequence keeping first occurrences, each present digest is
scheduled exactly once, and three layers with digests d1, d1, d2 (d1 and d2
distinct) schedule exactly the two tasks d1 and d2. -/
theorem c2_unique_digest_scheduling :
    (∀ layers : List Layer,
      scheduledTasks layers = uniqueFirstDigests [] (layers.map Layer.digest)) ∧
    (∀ (layers : List Layer) (d : Digest),
      (scheduledTasks layers).count d =
        if d ∈ layers.map Layer.digest then 1 else 0) ∧
    (∀ (m1 m2 m3 : String) (s1 s2 s3 : Nat) (d1 d2 : Digest), d1 ≠ d2 →
      scheduledTasks [⟨m1, s1, d1⟩, ⟨m2, s2, d1⟩, ⟨m3, s3, d2⟩] = [d1, d2] ∧
      (scheduledTasks [⟨m1, s1, d1⟩, ⟨m2, s2, d1⟩, ⟨m3, s3, d2⟩]).length = 2) := by
  have heq : ∀ layers : List Layer,
      scheduledTasks layers = uniqueFirstDigests [] (layers.map Layer.digest) := by
    intro layers
    apply scheduleLoop_eq_uniqueFirst
    intro d
    simp
  refine ⟨heq, ?_, ?_⟩
  · intro layers d
    rw [heq layers, uniqueFirst_count]
    simp
  · intro m1 m2 m3 s1 s2 s3 d1 d2 hne
    constructor
    · simp [scheduledTasks, scheduleLoop, hne]
    · simp [scheduledTasks, scheduleLoop, hne]

/-- Witness for C2 at three concrete layers with duplicated first digest. -/
theorem c2_witness :
    scheduledTasks
      [⟨"a", 1, ⟨"sha256", "aa"⟩⟩, ⟨"b", 2, ⟨"sha256", "aa"⟩⟩,
       ⟨"c", 3, ⟨"sha256", "bb"⟩⟩] =
      [⟨"sha256", "aa"⟩, ⟨"sha256", "bb"⟩] ∧
    (scheduledTasks
      [⟨"a", 1, ⟨"sha256", "aa"⟩⟩, ⟨"b", 2, ⟨"sha256", "aa"⟩⟩,
       ⟨"c", 3, ⟨"sha256", "bb"⟩⟩]).length = 2 :=
  c2_unique_digest_scheduling.2.2 "a" "b" "c" 1 2 3
    ⟨"sha256", "aa"⟩ ⟨"sha256", "bb"⟩ (by decide)

/-- Counterexample to C4 as stated: a 200 response with an unparseable body
surfaces under the RequestError variant of ErrorResponse, the very same
variant that a transport failure yields — the error enum has no DecodeError
kind distinct from the transport kind. -/
theorem c4_counterexample :
    requestResult (HttpOutcome.response 200 none none : HttpOutcome Unit) =
      Except.error (ErrorResponse.RequestError ReqwestErrorKind.decode) ∧
    requestResult (HttpOutcome.sendFail : HttpOutcome Unit) =
      Except.error (ErrorResponse.RequestError ReqwestErrorKind.request) ∧
    ErrorResponse.isRequestError
      (ErrorResponse.RequestError ReqwestErrorKind.decode) = true ∧
    ErrorResponse.isRequestError
      (ErrorResponse.RequestError ReqwestErrorKind.request) = true :=
  ⟨rfl, rfl, rfl, rfl⟩

/-- C4 amended: every failure of the request helper is one of exactly two
kinds: APIError, for a non-2xx response whose error body decodes into its
code and message pairs, and RequestError, which covers the transport
failure, the 200 response whose body fails to decode, and the non-2xx
response whose error body fails to decode. -/
theorem c4_amended_two_error_kinds :
    (∀ (T : Type) (es : ErrorList) (status : Nat) (bodyT : Option T),
      status ≠ 200 →
      requestResult (HttpOutcome.response status bodyT (some es)) =
        Except.error (ErrorResponse.APIError es)) ∧
    (∀ (T : Type) (bodyE : Option ErrorList),
      requestResult (HttpOutcome.response 200 (none : Option T) bodyE) =
        Except.error (ErrorResponse.RequestError ReqwestErrorKind.decode)) ∧
    (∀ (T : Type), requestResult (HttpOutcome.sendFail : HttpOutcome T) =
      Except.error (ErrorResponse.RequestError ReqwestErrorKind.request)) ∧
    (∀ (T : Type) (out : HttpOutcome T) (e : ErrorResponse),
      requestResult out = Except.error e →
      e.isRequestError = true ∨ ∃ es, e = ErrorResponse.APIError es) := by
  refine ⟨?_, ?_, ?_, ?_⟩
  · intro T es status bodyT hne
    simp [requestResult, hne]
  · intro T bodyE
    rfl
  · intro T
    rfl
  · intro T out e h
    cases out with
    | sendFail =>
      simp only [requestResult, Except.error.injEq] at h
      subst h
      exact Or.inl rfl
    | response status bodyT bodyE =>
      by_cases hs : status = 200
      · subst hs
        cases bodyT with
        | some t => simp [requestResult] at h
        | none =>
          simp [requestResult] at h
          subst h
          exact Or.inl rfl
      · cases bodyE with
        | some es =>
          simp [requestResult, hs] at h
          subst h
          exact Or.inr ⟨es, rfl⟩
        | none =>
          simp [requestResult, hs] at h
          subst h
          exact Or.inl rfl

/-- Witness for the amended C4: a 404 with a decodable error body surfaces
as APIError carrying that body, and the transport failure case lands in the
two-kind classification. -/
theorem c4_witness :
    requestResult (HttpOutcome.response 404 (none : Option Unit)
        (some ⟨[⟨"MANIFEST_UNKNOWN", "manifest unknown", "null"⟩]⟩)) =
      Except.error (ErrorResponse.APIError
        ⟨[⟨"MANIFEST_UNKNOWN", "manifest unknown", "null"⟩]⟩) ∧
    (ErrorResponse.isRequestError
        (ErrorResponse.RequestError ReqwestErrorKind.request) = true ∨
      ∃ es, ErrorResponse.RequestError ReqwestErrorKind.request =
        ErrorResponse.APIError es) :=
  ⟨c4_amended_two_error_kinds.1 Unit
      ⟨[⟨"MANIFEST_UNKNOWN", "manifest unknown", "null"⟩]⟩ 404 none
      (by decide),
   c4_amended_two_error_kinds.2.2.2 Unit HttpOutcome.sendFail _ rfl⟩

/-- Counterexample to C5 as stated: a download task whose blob has no known
total size sends no reports at all, so after end of stream the consumer has
not marked the task Completed — its entry is still Unknown. -/
theorem c5_counterexample :
    downloadLayerReports 0 ⟨"sha256", "aa"⟩ none 0 [[1, 2, 3]] = [] ∧
    consumeAll [LayerDownloadStatus.Unknown ⟨"sha256", "aa"⟩]
      (downloadLayerReports 0 ⟨"sha256", "aa"⟩ none 0 [[1, 2, 3]]) =
      [LayerDownloadStatus.Unknown ⟨"sha256", "aa"⟩] ∧
    completedAt
      (consumeAll [LayerDownloadStatus.Unknown ⟨"sha256", "aa"⟩]
        (downloadLayerReports 0 ⟨"sha256", "aa"⟩ none 0 [[1, 2, 3]])) 0 =
      false :=
  ⟨rfl, rfl, rfl⟩

/-- C5 amended: when the content length is absent, download_layer sends no
progress reports for the task, so the consumer never enters the Downloading
state whose rendering computes a percentage; but no end-of-stream signal
exists and nothing ever marks the task Completed: the status table is left
exactly as it was, an Unknown entry staying Unknown forever. -/
theorem c5_amended_no_total (n : Nat) (d : Digest) (downloaded : Nat)
    (chunks : List (List Nat)) :
    downloadLayerReports n d none downloaded chunks = [] ∧
    (∀ statuses : List LayerDownloadStatus,
      consumeAll statuses (downloadLayerReports n d none downloaded chunks) =
        statuses) ∧
    consumeAll [LayerDownloadStatus.Unknown d]
      (downloadLayerReports n d none downloaded chunks) =
      [LayerDownloadStatus.Unknown d] := by
  have h : ∀ (ch : List (List Nat)) (dl : Nat),
      downloadLayerReports n d none dl ch = [] := by
    intro ch
    induction ch with
    | nil => intro dl; rfl
    | cons c rest ih =>
      intro dl
      simp only [downloadLayerReports]
      exact ih _
  refine ⟨h chunks downloaded, ?_, ?_⟩
  · intro sts
    rw [h chunks downloaded]
    rfl
  · rw [h chunks downloaded]
    rfl

theorem completedAt_consume (nIdx : Nat)
    (reports : List DownloadProgressReport) :
    ∀ sts : List LayerDownloadStatus,
      (∀ p ∈ reports, p.n = nIdx → p.downloaded ≠ p.total) →
      completedAt sts nIdx = false →
      completedAt (consumeAll sts reports) nIdx = false := by
  induction reports with
  | nil => intro sts _ h2; exact h2
  | cons p rest ih =>
    intro sts h1 h2
    have hstep : completedAt (consumerStep sts p) nIdx = false := by
      unfold consumerStep completedAt
      by_cases hpn : p.n = nIdx
      · subst hpn
        have hne : p.downloaded ≠ p.total := h1 p (List.mem_cons_self _ _) rfl
        rw [if_neg hne, List.get?_set_eq]
        cases hg : sts.get? p.n with
        | none => simp [hg]
        | some s => simp [hg, LayerDownloadStatus.completed]
      · rw [List.get?_set_ne _ _ hpn]
        exact h2
    exact ih (consumerStep sts p) (fun q hq => h1 q (List.mem_cons_of_mem _ hq))
      hstep

/-- C6 amended: a blob open failure or a chunk read failure mid-stream makes
download_layer panic through unwrap instead of returning its typed error
outcome, and no terminal failure event exists — the only events sent before
the panic are the ordinary progress reports of the delivered chunks; the
consumer never marks the task Completed as long as no report for that task
carried downloaded equal to total. -/
theorem c6_amended_failure_panics :
    (∀ (n : Nat) (d : Digest),
      downloadLayerRun n d none = TaskOutcome.panicked []) ∧
    (∀ (n : Nat) (d : Digest) (b : Blob), b.responseFails = true →
      downloadLayerRun n d (some b) =
        TaskOutcome.panicked (downloadLayerReports n d b.len 0 b.response) ∧
      (downloadLayerRun n d (some b)).isPanic = true) ∧
    (∀ (nIdx : Nat) (sts : List LayerDownloadStatus)
        (reports : List DownloadProgressReport),
      (∀ p ∈ reports, p.n = nIdx → p.downloaded ≠ p.total) →
      completedAt sts nIdx = false →
      completedAt (consumeAll sts reports) nIdx = false) := by
  refine ⟨?_, ?_, ?_⟩
  · intro n d
    rfl
  · intro n d b hf
    have hrun : downloadLayerRun n d (some b) =
        if b.responseFails = true then
          TaskOutcome.panicked (downloadLayerReports n d b.len 0 b.response)
        else TaskOutcome.ok (downloadLayerReports n d b.len 0 b.response) := rfl
    rw [hrun, if_pos hf]
    exact ⟨rfl, rfl⟩
  · intro nIdx sts reports h1 h2
    exact completedAt_consume nIdx reports sts h1 h2

/-- Witness for the amended C6: a concrete blob failing after one chunk of
three bytes with an announced total of ten makes the task panic with one
ordinary progress report sent, and the consumer leaves the task short of
Completed. -/
theorem c6_witness :
    downloadLayerRun 0 ⟨"sha256", "aa"⟩
        (some ⟨[[1, 2, 3]], true, some 10, none, []⟩) =
      TaskOutcome.panicked [⟨0, ⟨"sha256", "aa"⟩, 3, 10⟩] ∧
    completedAt
      (consumeAll [LayerDownloadStatus.Unknown ⟨"sha256", "aa"⟩]
        [⟨0, ⟨"sha256", "aa"⟩, 3, 10⟩]) 0 = false :=
  ⟨(c6_amended_failure_panics.2.1 0 ⟨"sha256", "aa"⟩
      ⟨[[1, 2, 3]], true, some 10, none, []⟩ rfl).1,
   c6_amended_failure_panics.2.2 0 [LayerDownloadStatus.Unknown ⟨"sha256", "aa"⟩]
      [⟨0, ⟨"sha256", "aa"⟩, 3, 10⟩] (by decide) rfl⟩

/-- Counterexample to C6 as stated: a chunk read failure after one delivered
chunk ends the task in a panic, not in the typed outcome the claim
describes, and the events sent carry no failure marker — the report type has
only task index, digest and byte counts. -/
theorem c6_counterexample :
    downloadLayerRun 0 ⟨"sha256", "bb"⟩
        (some ⟨[[1, 2, 3]], true, some 10, none, []⟩) =
      TaskOutcome.panicked [⟨0, ⟨"sha256", "bb"⟩, 3, 10⟩] ∧
    (downloadLayerRun 0 ⟨"sha256", "bb"⟩
        (some ⟨[[1, 2, 3]], true, some 10, none, []⟩)).isPanic = true ∧
    downloadLayerRun 0 ⟨"sha256", "bb"⟩ none = TaskOutcome.panicked [] :=
  ⟨rfl, rfl, rfl⟩
